import Mathlib

/-!
Verification of the volmetd discovery and parsing core.

This file gives a shallow embedding, in Lean 4, of the pure core of the
volmetd repository: the /proc/diskstats parser (pkg/diskstats), the mount
table helpers and symlink resolver (pkg/mounts), and the multi-source
volume discovery merge engine (pkg/discovery).  I/O boundaries (opening
files, stat/readlink syscalls, the Kubernetes API) are modelled as
explicit inputs: a file becomes its list of lines, the filesystem's
symlink structure becomes a pair of functions, and a discovery producer
becomes its outcome for one pass.  Go maps become association lists with
first-match lookup and in-place update; Go uint64 arithmetic becomes Nat
arithmetic reduced modulo 2^64 where the code can overflow.
-/

/-- Whitespace test used by Go's strings.Fields (ASCII cases of unicode.IsSpace). -/
def goIsSpace (c : Char) : Bool :=
  c = ' ' || c = '\t' || c = '\n' || c = '\r' || c = '\x0b' || c = '\x0c'

/-- Accumulator-based splitter behind goFields: builds maximal runs of
non-space characters; acc holds the current field reversed. -/
def splitFieldsAux : List Char → List Char → List String
  | [], acc => if acc.isEmpty then [] else [String.mk acc.reverse]
  | c :: cs, acc =>
    if goIsSpace c then
      if acc.isEmpty then splitFieldsAux cs []
      else String.mk acc.reverse :: splitFieldsAux cs []
    else splitFieldsAux cs (c :: acc)

/-- Go strings.Fields: split a string around runs of whitespace; no empty fields. -/
def goFields (s : String) : List String :=
  splitFieldsAux s.data []

/-- Decimal digit test. -/
def isDigitCh (c : Char) : Bool :=
  '0' ≤ c && c ≤ '9'

/-- Value of a decimal digit string (most significant first). -/
def digitsToNat (l : List Char) : Nat :=
  l.foldl (fun a c => a * 10 + (c.toNat - '0'.toNat)) 0

/-- Go strconv.ParseUint(s, 10, 64): a non-empty all-digit string whose value
fits in 64 bits; no sign is permitted; overflow is an error (none). -/
def parseUint64 (s : String) : Option Nat :=
  if s.data ≠ [] && s.data.all isDigitCh && digitsToNat s.data < 2 ^ 64 then
    some (digitsToNat s.data)
  else none

/-- Go strconv.Atoi: optional sign, decimal digits, value within int64 range. -/
def parseIntGo (s : String) : Option Int :=
  match s.data with
  | '-' :: rest =>
    if rest ≠ [] && rest.all isDigitCh && digitsToNat rest ≤ 2 ^ 63 then
      some (-(digitsToNat rest : Int))
    else none
  | '+' :: rest =>
    if rest ≠ [] && rest.all isDigitCh && digitsToNat rest < 2 ^ 63 then
      some (digitsToNat rest : Int)
    else none
  | l =>
    if l ≠ [] && l.all isDigitCh && digitsToNat l < 2 ^ 63 then
      some (digitsToNat l : Int)
    else none

/-- parts := strings.Split(path, "/"); parts[len(parts)-1] : the suffix of the
string after its last slash (the whole string when it has no slash). -/
def lastSegment (s : String) : String :=
  String.mk ((s.data.reverse.takeWhile (fun c => c ≠ '/')).reverse)

/-- path[:strings.LastIndex(path, "/")+1] : the prefix of the string up to and
including its last slash (empty when it has no slash). -/
def parentDirOf (s : String) : String :=
  String.mk ((s.data.reverse.dropWhile (fun c => c ≠ '/')).reverse)

/-- Char-list prefix test behind strHasPfx. -/
def listIsPfx : List Char → List Char → Bool
  | [], _ => true
  | _ :: _, [] => false
  | a :: as, b :: bs => a = b && listIsPfx as bs

/-- Go strings.HasPrefix(s, pre): pre is a prefix of s.  (Defined on the
character lists so that it evaluates inside the kernel.) -/
def strHasPfx (s pre : String) : Bool :=
  listIsPfx pre.data s.data

/-- First-match lookup in an association list (a Go map read m[k]). -/
def lookupA {α : Type} : List (String × α) → String → Option α
  | [], _ => none
  | (k', v) :: rest, k => if k' = k then some v else lookupA rest k

/-- Replace the value bound to a key known to be present (a Go map write to an
existing key); leaves the list unchanged when the key is absent. -/
def updateA {α : Type} : List (String × α) → String → α → List (String × α)
  | [], _, _ => []
  | (k', v') :: rest, k, v =>
    if k' = k then (k, v) :: rest else (k', v') :: updateA rest k v

/-- Go map write m[k] = v: replace the binding when the key is present,
append a new binding otherwise. -/
def upsertA {α : Type} (m : List (String × α)) (k : String) (v : α) : List (String × α) :=
  match lookupA m k with
  | some _ => updateA m k v
  | none => m ++ [(k, v)]

namespace diskstats

/-- pkg/diskstats Stats: one /proc/diskstats line.  Counters are Go uint64,
modelled as Nat (parseUint64 bounds them below 2^64); Major/Minor are Go int. -/
structure Stats where
  Major : Int
  Minor : Int
  DeviceName : String
  ReadsCompleted : Nat
  ReadsMerged : Nat
  SectorsRead : Nat
  ReadTimeMs : Nat
  WritesCompleted : Nat
  WritesMerged : Nat
  SectorsWritten : Nat
  WriteTimeMs : Nat
  IOInProgress : Nat
  IOTimeMs : Nat
  WeightedIOTimeMs : Nat
  DiscardsCompleted : Nat
  DiscardsMerged : Nat
  SectorsDiscarded : Nat
  DiscardTimeMs : Nat
  FlushCompleted : Nat
  FlushTimeMs : Nat
  deriving DecidableEq

/-- s.SectorsRead * 512 in uint64 arithmetic. -/
def Stats.ReadBytesTotal (s : Stats) : Nat :=
  s.SectorsRead * 512 % 2 ^ 64

/-- s.SectorsWritten * 512 in uint64 arithmetic. -/
def Stats.WriteBytesTotal (s : Stats) : Nat :=
  s.SectorsWritten * 512 % 2 ^ 64

/-- fmt.Sprintf("%d:%d", s.Major, s.Minor). -/
def Stats.deviceID (s : Stats) : String :=
  toString s.Major ++ ":" ++ toString s.Minor

/-- StatsMap: diskstats indexed both by device name and by "major:minor". -/
structure StatsMap where
  ByName : List (String × Stats)
  ByDeviceID : List (String × Stats)
  deriving DecidableEq

/-- The parse loop over fields[3:]: each field through ParseUint; the first
failure aborts the line.  Mirrors the nums slice of parseLine. -/
def parseNums : List String → Option (List Nat)
  | [] => some []
  | f :: rest =>
    match parseUint64 f, parseNums rest with
    | some n, some ns => some (n :: ns)
    | _, _ => none

/-- pkg/diskstats parseLine: fewer than 14 fields is an error (none); fields
0,1 parse as int, field 2 is the device name, fields 3.. parse as uint64.
nums[11..14] populate discards only when present (>= 15 numeric fields,
i.e. >= 18 total); nums[15..16] populate flushes only when present
(>= 17 numeric, i.e. >= 20 total); otherwise those counters stay zero. -/
def parseLineAux (fs : List String) : Option Stats :=
  if fs.length < 14 then none
  else
    match parseIntGo (fs.getD 0 ""), parseIntGo (fs.getD 1 ""), parseNums (fs.drop 3) with
    | some maj, some mnr, some nums =>
      some
        { Major := maj
          Minor := mnr
          DeviceName := fs.getD 2 ""
          ReadsCompleted := nums.getD 0 0
          ReadsMerged := nums.getD 1 0
          SectorsRead := nums.getD 2 0
          ReadTimeMs := nums.getD 3 0
          WritesCompleted := nums.getD 4 0
          WritesMerged := nums.getD 5 0
          SectorsWritten := nums.getD 6 0
          WriteTimeMs := nums.getD 7 0
          IOInProgress := nums.getD 8 0
          IOTimeMs := nums.getD 9 0
          WeightedIOTimeMs := nums.getD 10 0
          DiscardsCompleted := if 15 ≤ nums.length then nums.getD 11 0 else 0
          DiscardsMerged := if 15 ≤ nums.length then nums.getD 12 0 else 0
          SectorsDiscarded := if 15 ≤ nums.length then nums.getD 13 0 else 0
          DiscardTimeMs := if 15 ≤ nums.length then nums.getD 14 0 else 0
          FlushCompleted := if 17 ≤ nums.length then nums.getD 15 0 else 0
          FlushTimeMs := if 17 ≤ nums.length then nums.getD 16 0 else 0 }
    | _, _, _ => none

/-- pkg/diskstats parseLine: fields := strings.Fields(line), then the body
above (split so that proofs can reason about the field list directly). -/
def parseLine (line : String) : Option Stats :=
  parseLineAux (goFields line)

/-- One iteration of the Parse scanner loop: a line that fails parseLine is
skipped; a parsed record is written into both indexes. -/
def parseStep (m : StatsMap) (line : String) : StatsMap :=
  match parseLine line with
  | none => m
  | some s =>
    { ByName := upsertA m.ByName s.DeviceName s
      ByDeviceID := upsertA m.ByDeviceID s.deviceID s }

/-- pkg/diskstats Parse, with the opened file abstracted to its list of lines
(open/scan I/O errors are outside this embedding; the line-processing loop
itself never fails). -/
def Parse (lines : List String) : StatsMap :=
  lines.foldl parseStep { ByName := [], ByDeviceID := [] }

end diskstats

namespace mounts

/-- pkg/mounts Mount: one line of the mount table. -/
structure Mount where
  Device : String
  MountPoint : String
  FSType : String
  Options : String
  deriving DecidableEq

/-- The FindMountByPath loop, with its two mutable locals best and bestLen as
accumulators: an entry replaces the best match when its mount point is a
prefix of the path and is strictly longer than the best length so far. -/
def findBest (path : String) : Option Mount → Nat → List Mount → Option Mount
  | best, _, [] => best
  | best, bestLen, m :: rest =>
    if strHasPfx path m.MountPoint = true ∧ bestLen < m.MountPoint.length then
      findBest path (some m) m.MountPoint.length rest
    else
      findBest path best bestLen rest

/-- pkg/mounts FindMountByPath: longest mount-point prefix of the path wins;
ties keep the earlier entry (the update requires a strictly longer match). -/
def FindMountByPath (ms : List Mount) (path : String) : Option Mount :=
  findBest path none 0 ms

/-- The filesystem as seen by evalSymlinks: lstat answers whether a path is a
symlink (none models an lstat error), readlink gives a link target (none
models a readlink error). -/
structure SymFS where
  lstat : String → Option Bool
  readlink : String → Option String

/-- The evalSymlinks loop with its iteration budget as fuel.  Returns the
path, whether resolution completed without error (Go err == nil), and how
many links were followed.  An lstat or readlink failure returns the current
path with an error; running out of fuel is the "too many symlinks" error. -/
def evalLoop (fs : SymFS) : Nat → String → String × Bool × Nat
  | 0, p => (p, false, 0)
  | fuel + 1, p =>
    match fs.lstat p with
    | none => (p, false, 0)
    | some false => (p, true, 0)
    | some true =>
      match fs.readlink p with
      | none => (p, false, 0)
      | some t =>
        let next := if strHasPfx t "/" then t else parentDirOf p ++ t
        let r := evalLoop fs fuel next
        (r.1, r.2.1, r.2.2 + 1)

/-- pkg/mounts evalSymlinks: the loop runs for at most 255 iterations. -/
def evalSymlinks (fs : SymFS) (path : String) : String × Bool :=
  ((evalLoop fs 255 path).1, (evalLoop fs 255 path).2.1)

/-- pkg/mounts ResolveDevice: on any evalSymlinks error the original input
path is used unresolved; the device name is the last path segment. -/
def ResolveDevice (fs : SymFS) (devicePath : String) : String × String :=
  let e := evalSymlinks fs devicePath
  let resolved := if e.2 then e.1 else devicePath
  (resolved, lastSegment resolved)

end mounts

namespace discovery

/-- pkg/discovery VolumeInfo.  Fields as in the struct declared alongside
mergeVolumeInfo in types.go, plus DeviceID, which elsewhere in the
repository the K8sAPI discoverer fills ("%d:%d" from stat) and the
collector's device-name resolution reads. -/
structure VolumeInfo where
  PVCName : String
  PVCNamespace : String
  PVName : String
  PodName : String
  PodNamespace : String
  PodUID : String
  StorageClass : String
  CSIDriver : String
  VolumeHandle : String
  DevicePath : String
  DeviceName : String
  DeviceID : String
  CSIDevicePath : String
  MountPath : String
  ContainerMountPath : String
  deriving DecidableEq

/-- A discovery producer's behaviour for one Discover pass: the value of
Available(ctx), and the outcome of Discover(ctx) — none models a non-nil
error, some vs a successful record list.  (Name() is only used for logs.) -/
structure Discoverer where
  available : Bool
  discover : Option (List VolumeInfo)
  deriving DecidableEq

/-- pkg/discovery mergeVolumeInfo: fill fields of dst from src.  Each branch
reads only pre-merge dst fields and writes a distinct field, so the Go
sequence of in-place assignments equals this simultaneous record update.
PVC name is also filled when the current one merely echoes the PV name, and
only from a src PVC name that is real data (non-empty and not src's PV
name).  DeviceName and DeviceID are not touched by the source function. -/
def mergeVolumeInfo (dst src : VolumeInfo) : VolumeInfo :=
  { dst with
    PVCName :=
      if (dst.PVCName = "" ∨ dst.PVCName = dst.PVName)
          ∧ (src.PVCName ≠ "" ∧ src.PVCName ≠ src.PVName) then
        src.PVCName
      else dst.PVCName
    PVCNamespace := if dst.PVCNamespace = "" then src.PVCNamespace else dst.PVCNamespace
    PVName := if dst.PVName = "" then src.PVName else dst.PVName
    PodName := if dst.PodName = "" then src.PodName else dst.PodName
    PodNamespace := if dst.PodNamespace = "" then src.PodNamespace else dst.PodNamespace
    PodUID := if dst.PodUID = "" then src.PodUID else dst.PodUID
    StorageClass := if dst.StorageClass = "" then src.StorageClass else dst.StorageClass
    CSIDriver := if dst.CSIDriver = "" then src.CSIDriver else dst.CSIDriver
    VolumeHandle := if dst.VolumeHandle = "" then src.VolumeHandle else dst.VolumeHandle
    DevicePath := if dst.DevicePath = "" then src.DevicePath else dst.DevicePath
    CSIDevicePath := if dst.CSIDevicePath = "" then src.CSIDevicePath else dst.CSIDevicePath
    MountPath := if dst.MountPath = "" then src.MountPath else dst.MountPath
    ContainerMountPath :=
      if dst.ContainerMountPath = "" then src.ContainerMountPath else dst.ContainerMountPath }

/-- The inner loop body of MultiDiscoverer.Discover for one record: a record
with an empty DeviceName is skipped; an existing entry under the same
device name is merged in place; otherwise the record becomes the canonical
entry for its device name. -/
def mergeStep (seen : List (String × VolumeInfo)) (v : VolumeInfo) :
    List (String × VolumeInfo) :=
  if v.DeviceName = "" then seen
  else
    match lookupA seen v.DeviceName with
    | some existing => updateA seen v.DeviceName (mergeVolumeInfo existing v)
    | none => seen ++ [(v.DeviceName, v)]

/-- The outer loop body of MultiDiscoverer.Discover for one producer: skipped
when unavailable; skipped when its Discover errors; otherwise its records
are folded into the seen map in order. -/
def discoverStep (seen : List (String × VolumeInfo)) (d : Discoverer) :
    List (String × VolumeInfo) :=
  if d.available then
    match d.discover with
    | some vs => vs.foldl mergeStep seen
    | none => seen
  else seen

/-- The seen map built by MultiDiscoverer.Discover across all producers in
priority order. -/
def runProducers (ds : List Discoverer) : List (String × VolumeInfo) :=
  ds.foldl discoverStep []

/-- pkg/discovery MultiDiscoverer. -/
structure MultiDiscoverer where
  discoverers : List Discoverer

/-- MultiDiscoverer.Discover.  The Go function returns (result, nil) on every
path; the Except layer records that the error result is always absent.  The
result is the seen map (Go returns its values in unspecified map order; the
association list retains the keys, which theorems read via lookupA). -/
def MultiDiscoverer.Discover (m : MultiDiscoverer) :
    Except String (List (String × VolumeInfo)) :=
  Except.ok (runProducers m.discoverers)

/-- pkg/discovery extractPVCName: both branches return the argument. -/
def extractPVCName (pvName : String) : String :=
  if strHasPfx pvName "pvc-" then pvName else pvName

/-- The vol_data.json fields consumed by the CSI discoverer. -/
structure volData where
  VolumeName : String
  DriverName : String
  VolumeHandle : String
  PodName : String
  PodNamespace : String
  PodUID : String
  deriving DecidableEq

/-- The VolumeInfo literal built in the loop body of discoverCSIVolumes
(csi.go): PVName from vol_data's specVolID, PVCName through extractPVCName
on the same value; fields the literal omits are Go zero values "". -/
def mkCSIVolumeInfo (podUID : String) (vd : volData) (mount : mounts.Mount)
    (deviceName : String) (mountPath : String) : VolumeInfo :=
  { PVName := vd.VolumeName
    PVCName := extractPVCName vd.VolumeName
    PVCNamespace := vd.PodNamespace
    PodName := vd.PodName
    PodNamespace := vd.PodNamespace
    PodUID := podUID
    CSIDriver := vd.DriverName
    VolumeHandle := vd.VolumeHandle
    DevicePath := mount.Device
    DeviceName := deviceName
    MountPath := mountPath
    StorageClass := ""
    DeviceID := ""
    CSIDevicePath := ""
    ContainerMountPath := "" }

/-- A VolumeInfo with every field empty; concrete inputs below adjust it. -/
def emptyVolumeInfo : VolumeInfo :=
  { PVCName := "", PVCNamespace := "", PVName := "", PodName := "", PodNamespace := ""
    PodUID := "", StorageClass := "", CSIDriver := "", VolumeHandle := ""
    DevicePath := "", DeviceName := "", DeviceID := "", CSIDevicePath := ""
    MountPath := "", ContainerMountPath := "" }

/-- Counterexample input: a canonical entry whose DeviceID is empty. -/
def mergeCxDst : VolumeInfo :=
  { emptyVolumeInfo with DeviceName := "sda", PVName := "pv-a" }

/-- Counterexample input: an incoming record carrying a non-empty DeviceID. -/
def mergeCxSrc : VolumeInfo :=
  { emptyVolumeInfo with DeviceName := "sda", DeviceID := "8:0" }

/-- Counterexample input: a canonical entry whose PVC name is a non-empty
placeholder (equal to its PV name). -/
def placeholderDst : VolumeInfo :=
  { emptyVolumeInfo with DeviceName := "sda", PVCName := "pvc-x", PVName := "pvc-x" }

/-- Counterexample input: an incoming record with a real PVC name. -/
def placeholderSrc : VolumeInfo :=
  { emptyVolumeInfo with DeviceName := "sda", PVCName := "data", PVName := "pv-y" }

/-- Witness input: a canonical entry with genuinely populated PVC/PV names. -/
def keepDst : VolumeInfo :=
  { emptyVolumeInfo with DeviceName := "sda", PVCName := "claim-a", PVName := "pv-1" }

/-- Witness input: an incoming record offering different PVC/PV names. -/
def keepSrc : VolumeInfo :=
  { emptyVolumeInfo with DeviceName := "sda", PVCName := "claim-b", PVName := "pv-2" }

/-- Counterexample input: a record whose DeviceID is set but whose DeviceName
is empty. -/
def idOnlyRecord : VolumeInfo :=
  { emptyVolumeInfo with DeviceID := "8:0", DevicePath := "/dev/sda" }

/-- Counterexample input: one available producer yielding only idOnlyRecord. -/
def idOnlyProducer : Discoverer :=
  { available := true, discover := some [idOnlyRecord] }

/-- Witness input: a record carrying only a device name. -/
def sdaRecord : VolumeInfo :=
  { emptyVolumeInfo with DeviceName := "sda" }

/-- Witness input: an available producer yielding one named record. -/
def namedProducer : Discoverer :=
  { available := true, discover := some [sdaRecord] }

/-- Witness input: an unavailable producer. -/
def downProducer : Discoverer :=
  { available := false, discover := some [{ emptyVolumeInfo with DeviceName := "sdb" }] }

/-- Witness input: an available producer whose Discover errors. -/
def failingProducer : Discoverer :=
  { available := true, discover := none }

end discovery

namespace mounts

/-- Witness input: a mount table with nested mount points /a and /a/b. -/
def mountA : Mount := { Device := "/dev/sda", MountPoint := "/a", FSType := "ext4", Options := "rw" }

/-- Witness input: the more specific /a/b entry of the same table. -/
def mountAB : Mount := { Device := "/dev/sdb", MountPoint := "/a/b", FSType := "ext4", Options := "rw" }

/-- Counterexample input: a mount entry whose mount point is the empty string. -/
def emptyPointMount : Mount := { Device := "dev", MountPoint := "", FSType := "t", Options := "o" }

/-- Witness input: a filesystem whose only entries are the two symlinks
/a -> /b and /b -> /a, a cycle. -/
def cycleFS : SymFS :=
  { lstat := fun s => some (decide (s = "/a" ∨ s = "/b"))
    readlink := fun s => if s = "/a" then some "/b" else if s = "/b" then some "/a" else none }

end mounts

namespace diskstats

/-- Witness input: a minimal 14-field diskstats line. -/
def line14 : String := "8 0 sda 100 0 800 50 0 0 0 0 0 0 0"

/-- The record parseLine yields for line14. -/
def stats14 : Stats :=
  { Major := 8, Minor := 0, DeviceName := "sda", ReadsCompleted := 100, ReadsMerged := 0,
    SectorsRead := 800, ReadTimeMs := 50, WritesCompleted := 0, WritesMerged := 0,
    SectorsWritten := 0, WriteTimeMs := 0, IOInProgress := 0, IOTimeMs := 0,
    WeightedIOTimeMs := 0, DiscardsCompleted := 0, DiscardsMerged := 0, SectorsDiscarded := 0,
    DiscardTimeMs := 0, FlushCompleted := 0, FlushTimeMs := 0 }

/-- Witness input: an 18-field line (the four discard counters present). -/
def line18 : String := "8 0 sda 1 2 3 4 5 6 7 8 9 10 11 12 13 14 15"

/-- The record parseLine yields for line18. -/
def stats18 : Stats :=
  { Major := 8, Minor := 0, DeviceName := "sda", ReadsCompleted := 1, ReadsMerged := 2,
    SectorsRead := 3, ReadTimeMs := 4, WritesCompleted := 5, WritesMerged := 6,
    SectorsWritten := 7, WriteTimeMs := 8, IOInProgress := 9, IOTimeMs := 10,
    WeightedIOTimeMs := 11, DiscardsCompleted := 12, DiscardsMerged := 13, SectorsDiscarded := 14,
    DiscardTimeMs := 15, FlushCompleted := 0, FlushTimeMs := 0 }

/-- Counterexample input: a line whose sector-read counter is 2^63; multiplied
by 512 this wraps around 64-bit arithmetic to 0. -/
def lineOverflow : String := "8 0 sda 100 0 9223372036854775808 50 0 0 0 0 0 0 0"

/-- Counterexample input: a second line reusing device name sda and device id
8:0, which shadows the first line's record in both indexes. -/
def lineShadow : String := "8 0 sda 999 0 11 50 0 0 0 0 0 0 0"

/-- Counterexample input: a malformed line with fewer than 14 fields. -/
def lineShort : String := "8 0 sda 100"

end diskstats

namespace diskstats

/-- The record parseLine yields for lineOverflow. -/
def statsOverflow : Stats :=
  { stats14 with SectorsRead := 9223372036854775808 }

/-- The record parseLine yields for lineShadow. -/
def statsShadow : Stats :=
  { stats14 with ReadsCompleted := 999, SectorsRead := 11 }

end diskstats

open diskstats mounts discovery

theorem fill_eq (a b : String) :
    (if a = "" then b else a) = if a = "" ∧ b ≠ "" then b else a := by
  by_cases ha : a = "" <;> by_cases hb : b = "" <;> simp [ha, hb]

theorem keep_of_ne (a b : String) (h : a ≠ "") : (if a = "" then b else a) = a := by
  simp [h]

/-- C2 (amended): when Discover merges an incoming record into the canonical
entry for a key, then for every field other than DeviceName and DeviceID:
the canonical entry receives the incoming value exactly when its own field
was empty — or, for the PVC-name field only, equal to its PV-name field —
and the incoming field is non-empty (and, for PVC name, differs from the
incoming record's PV name); every genuinely populated field keeps its
value.  The DeviceName and DeviceID fields are never copied: the canonical
entry keeps them even when empty and non-empty on the incoming record. -/
theorem c2_discover_fill_in_merge (dst src : VolumeInfo) :
    (mergeVolumeInfo dst src).PVCName =
      (if (dst.PVCName = "" ∨ dst.PVCName = dst.PVName)
          ∧ (src.PVCName ≠ "" ∧ src.PVCName ≠ src.PVName)
       then src.PVCName else dst.PVCName)
    ∧ (mergeVolumeInfo dst src).PVCNamespace =
      (if dst.PVCNamespace = "" ∧ src.PVCNamespace ≠ "" then src.PVCNamespace
       else dst.PVCNamespace)
    ∧ (mergeVolumeInfo dst src).PVName =
      (if dst.PVName = "" ∧ src.PVName ≠ "" then src.PVName else dst.PVName)
    ∧ (mergeVolumeInfo dst src).PodName =
      (if dst.PodName = "" ∧ src.PodName ≠ "" then src.PodName else dst.PodName)
    ∧ (mergeVolumeInfo dst src).PodNamespace =
      (if dst.PodNamespace = "" ∧ src.PodNamespace ≠ "" then src.PodNamespace
       else dst.PodNamespace)
    ∧ (mergeVolumeInfo dst src).PodUID =
      (if dst.PodUID = "" ∧ src.PodUID ≠ "" then src.PodUID else dst.PodUID)
    ∧ (mergeVolumeInfo dst src).StorageClass =
      (if dst.StorageClass = "" ∧ src.StorageClass ≠ "" then src.StorageClass
       else dst.StorageClass)
    ∧ (mergeVolumeInfo dst src).CSIDriver =
      (if dst.CSIDriver = "" ∧ src.CSIDriver ≠ "" then src.CSIDriver else dst.CSIDriver)
    ∧ (mergeVolumeInfo dst src).VolumeHandle =
      (if dst.VolumeHandle = "" ∧ src.VolumeHandle ≠ "" then src.VolumeHandle
       else dst.VolumeHandle)
    ∧ (mergeVolumeInfo dst src).DevicePath =
      (if dst.DevicePath = "" ∧ src.DevicePath ≠ "" then src.DevicePath else dst.DevicePath)
    ∧ (mergeVolumeInfo dst src).CSIDevicePath =
      (if dst.CSIDevicePath = "" ∧ src.CSIDevicePath ≠ "" then src.CSIDevicePath
       else dst.CSIDevicePath)
    ∧ (mergeVolumeInfo dst src).MountPath =
      (if dst.MountPath = "" ∧ src.MountPath ≠ "" then src.MountPath else dst.MountPath)
    ∧ (mergeVolumeInfo dst src).ContainerMountPath =
      (if dst.ContainerMountPath = "" ∧ src.ContainerMountPath ≠ "" then src.ContainerMountPath
       else dst.ContainerMountPath)
    ∧ (mergeVolumeInfo dst src).DeviceName = dst.DeviceName
    ∧ (mergeVolumeInfo dst src).DeviceID = dst.DeviceID :=
  ⟨rfl, fill_eq _ _, fill_eq _ _, fill_eq _ _, fill_eq _ _, fill_eq _ _, fill_eq _ _,
    fill_eq _ _, fill_eq _ _, fill_eq _ _, fill_eq _ _, fill_eq _ _, fill_eq _ _, rfl, rfl⟩

/-- C2 counterexample: the canonical entry's empty DeviceID does not receive
the incoming record's non-empty DeviceID — the merge never copies it, so
the claim's "for every field" fails at the device-id field. -/
theorem c2_counterexample :
    mergeCxDst.DeviceID = "" ∧ mergeCxSrc.DeviceID ≠ ""
      ∧ (mergeVolumeInfo mergeCxDst mergeCxSrc).DeviceID ≠ mergeCxSrc.DeviceID := by
  decide

/-- C9 (amended): merging into an existing canonical entry never changes a
non-empty field, except that a non-empty PVC name equal to the PV name (a
placeholder) may be replaced; every other non-empty field, and any PVC
name that differs from the PV name, keeps its value. -/
theorem c9_merge_preserves_populated (dst src : VolumeInfo) :
    (dst.PVCName ≠ "" → dst.PVCName ≠ dst.PVName →
      (mergeVolumeInfo dst src).PVCName = dst.PVCName)
    ∧ (dst.PVCNamespace ≠ "" → (mergeVolumeInfo dst src).PVCNamespace = dst.PVCNamespace)
    ∧ (dst.PVName ≠ "" → (mergeVolumeInfo dst src).PVName = dst.PVName)
    ∧ (dst.PodName ≠ "" → (mergeVolumeInfo dst src).PodName = dst.PodName)
    ∧ (dst.PodNamespace ≠ "" → (mergeVolumeInfo dst src).PodNamespace = dst.PodNamespace)
    ∧ (dst.PodUID ≠ "" → (mergeVolumeInfo dst src).PodUID = dst.PodUID)
    ∧ (dst.StorageClass ≠ "" → (mergeVolumeInfo dst src).StorageClass = dst.StorageClass)
    ∧ (dst.CSIDriver ≠ "" → (mergeVolumeInfo dst src).CSIDriver = dst.CSIDriver)
    ∧ (dst.VolumeHandle ≠ "" → (mergeVolumeInfo dst src).VolumeHandle = dst.VolumeHandle)
    ∧ (dst.DevicePath ≠ "" → (mergeVolumeInfo dst src).DevicePath = dst.DevicePath)
    ∧ (dst.CSIDevicePath ≠ "" → (mergeVolumeInfo dst src).CSIDevicePath = dst.CSIDevicePath)
    ∧ (dst.MountPath ≠ "" → (mergeVolumeInfo dst src).MountPath = dst.MountPath)
    ∧ (dst.ContainerMountPath ≠ "" →
        (mergeVolumeInfo dst src).ContainerMountPath = dst.ContainerMountPath)
    ∧ (mergeVolumeInfo dst src).DeviceName = dst.DeviceName
    ∧ (mergeVolumeInfo dst src).DeviceID = dst.DeviceID := by
  refine ⟨?_, ?_, ?_, ?_, ?_, ?_, ?_, ?_, ?_, ?_, ?_, ?_, ?_, rfl, rfl⟩
  · intro h1 h2
    simp [mergeVolumeInfo, h1, h2]
  all_goals exact fun h => keep_of_ne _ _ h

/-- C9 counterexample: a non-empty PVC name that equals the PV name is
changed by the merge, so "never changes any non-empty field" fails. -/
theorem c9_counterexample :
    placeholderDst.PVCName ≠ ""
      ∧ (mergeVolumeInfo placeholderDst placeholderSrc).PVCName ≠ placeholderDst.PVCName := by
  decide

/-- C9 witness: at concrete records with a genuinely populated PVC name the
merge keeps the canonical value. -/
theorem c9_witness :
    keepDst.PVCName ≠ "" ∧ (mergeVolumeInfo keepDst keepSrc).PVCName = keepDst.PVCName :=
  ⟨by decide, (c9_merge_preserves_populated keepDst keepSrc).1 (by decide) (by decide)⟩

/-- C10: extractPVCName returns its input unchanged on every input, so every
record built by the CSI discoverer's loop carries a PVC name equal to its
PV name — the placeholder the merge engine treats as overwritable. -/
theorem c10_csi_pvc_name_echoes_pv :
    (∀ s, extractPVCName s = s)
    ∧ ∀ podUID vd mnt dn mp,
        (mkCSIVolumeInfo podUID vd mnt dn mp).PVCName
          = (mkCSIVolumeInfo podUID vd mnt dn mp).PVName := by
  have h : ∀ s, extractPVCName s = s := by
    intro s
    unfold extractPVCName
    split <;> rfl
  exact ⟨h, fun podUID vd mnt dn mp => h vd.VolumeName⟩

theorem lookupA_updateA_self {α : Type} :
    ∀ (m : List (String × α)) (k : String) (v : α),
      lookupA m k ≠ none → lookupA (updateA m k v) k = some v := by
  intro m
  induction m with
  | nil => intro k v h; simp [lookupA] at h
  | cons p t ih =>
    intro k v h
    cases p with
    | mk k' v' =>
      by_cases hk : k' = k
      · simp [updateA, hk, lookupA]
      · simp only [lookupA, if_neg hk] at h
        simp [updateA, hk, lookupA, ih k v h]

theorem lookupA_updateA_ne {α : Type} :
    ∀ (m : List (String × α)) (k k' : String) (v : α),
      k' ≠ k → lookupA (updateA m k v) k' = lookupA m k' := by
  intro m
  induction m with
  | nil => intro k k' v h; rfl
  | cons p t ih =>
    intro k k' v h
    cases p with
    | mk k0 v0 =>
      by_cases hk : k0 = k
      · subst hk
        have hne : ¬ k0 = k' := fun hh => h hh.symm
        simp [updateA, lookupA, hne]
      · simp [updateA, hk, lookupA, ih k k' v h]

theorem lookupA_append_none {α : Type} :
    ∀ (m rest : List (String × α)) (k : String),
      lookupA m k = none → lookupA (m ++ rest) k = lookupA rest k := by
  intro m
  induction m with
  | nil => intro rest k _; rfl
  | cons p t ih =>
    intro rest k h
    cases p with
    | mk k0 v0 =>
      by_cases hk : k0 = k
      · simp [lookupA, hk] at h
      · simp only [lookupA, if_neg hk] at h
        simp [lookupA, hk, ih rest k h]

theorem lookupA_append_some {α : Type} :
    ∀ (m rest : List (String × α)) (k : String) (v : α),
      lookupA m k = some v → lookupA (m ++ rest) k = some v := by
  intro m
  induction m with
  | nil => intro rest k v h; simp [lookupA] at h
  | cons p t ih =>
    intro rest k v h
    cases p with
    | mk k0 v0 =>
      by_cases hk : k0 = k
      · simp [lookupA, hk] at h ⊢; exact h
      · simp only [lookupA, if_neg hk] at h
        simp [lookupA, hk, ih rest k v h]

theorem lookupA_upsertA_self {α : Type} (m : List (String × α)) (k : String) (v : α) :
    lookupA (upsertA m k v) k = some v := by
  unfold upsertA
  cases hl : lookupA m k with
  | none => rw [lookupA_append_none m _ k hl]; simp [lookupA]
  | some w => exact lookupA_updateA_self m k v (by simp [hl])

theorem lookupA_upsertA_ne {α : Type} (m : List (String × α)) (k k' : String) (v : α)
    (h : k' ≠ k) : lookupA (upsertA m k v) k' = lookupA m k' := by
  unfold upsertA
  cases hl : lookupA m k with
  | none =>
    cases hl2 : lookupA m k' with
    | none =>
      rw [lookupA_append_none m _ k' hl2]
      have hne : ¬ k = k' := fun hh => h hh.symm
      simp [lookupA, hne]
    | some w => exact lookupA_append_some m _ k' w hl2
  | some w => exact lookupA_updateA_ne m k k' v h

theorem updateA_length {α : Type} :
    ∀ (m : List (String × α)) (k : String) (v : α), (updateA m k v).length = m.length := by
  intro m
  induction m with
  | nil => intro k v; rfl
  | cons p t ih =>
    intro k v
    cases p with
    | mk k0 v0 =>
      by_cases hk : k0 = k <;> simp [updateA, hk, ih]

theorem upsertA_length_le {α : Type} (m : List (String × α)) (k : String) (v : α) :
    (upsertA m k v).length ≤ m.length + 1 := by
  unfold upsertA
  cases hl : lookupA m k with
  | none => simp
  | some w => simp [updateA_length]

theorem parseStep_length (m : diskstats.StatsMap) (l : String) :
    (diskstats.parseStep m l).ByName.length ≤ m.ByName.length + 1
    ∧ (diskstats.parseStep m l).ByDeviceID.length ≤ m.ByDeviceID.length + 1 := by
  unfold diskstats.parseStep
  cases diskstats.parseLine l with
  | none => exact ⟨Nat.le_succ _, Nat.le_succ _⟩
  | some s => exact ⟨upsertA_length_le _ _ _, upsertA_length_le _ _ _⟩

theorem parseFold_length (ls : List String) :
    ∀ m : diskstats.StatsMap,
      (ls.foldl diskstats.parseStep m).ByName.length ≤ m.ByName.length + ls.length
      ∧ (ls.foldl diskstats.parseStep m).ByDeviceID.length ≤ m.ByDeviceID.length + ls.length := by
  induction ls with
  | nil => intro m; simp
  | cons l t ih =>
    intro m
    have h1 := parseStep_length m l
    have h2 := ih (diskstats.parseStep m l)
    refine ⟨?_, ?_⟩ <;> simp only [List.foldl_cons, List.length_cons] <;> omega

theorem parseLine_short (l : String) (h : (goFields l).length < 14) :
    diskstats.parseLine l = none := by
  unfold diskstats.parseLine diskstats.parseLineAux
  simp [h]

/-- C5: Parse skips malformed lines and continues — removing a line with fewer
than 14 fields from anywhere in the input leaves the result unchanged — and
each index of the returned StatsMap holds at most one record per input
line.  (The only error paths of the Go Parse are opening and scanning the
file, which are outside this embedding; the per-line loop is total.) -/
theorem c5_parse_skips_short_lines :
    (∀ lines : List String,
      (diskstats.Parse lines).ByName.length ≤ lines.length
      ∧ (diskstats.Parse lines).ByDeviceID.length ≤ lines.length)
    ∧ ∀ (pre : List String) (l : String) (post : List String),
        (goFields l).length < 14 →
        diskstats.Parse (pre ++ l :: post) = diskstats.Parse (pre ++ post) := by
  constructor
  · intro lines
    have h := parseFold_length lines { ByName := [], ByDeviceID := [] }
    simpa using h
  · intro pre l post h
    unfold diskstats.Parse
    rw [List.foldl_append, List.foldl_append, List.foldl_cons]
    have hstep : diskstats.parseStep (List.foldl diskstats.parseStep { ByName := [], ByDeviceID := [] } pre) l
        = List.foldl diskstats.parseStep { ByName := [], ByDeviceID := [] } pre := by
      unfold diskstats.parseStep
      rw [parseLine_short l h]
    rw [hstep]

/-- C5 witness: a 4-field line inside a two-line input is skipped and the
other line still parses. -/
theorem c5_witness :
    diskstats.Parse [diskstats.line14, diskstats.lineShort] = diskstats.Parse [diskstats.line14]
    ∧ (goFields diskstats.lineShort).length < 14 :=
  ⟨c5_parse_skips_short_lines.2 [diskstats.line14] diskstats.lineShort [] (by decide),
   by decide⟩

theorem parse_post_preserved (post : List String) :
    ∀ (m : diskstats.StatsMap) (s : diskstats.Stats),
      lookupA m.ByName s.DeviceName = some s →
      lookupA m.ByDeviceID s.deviceID = some s →
      (∀ l ∈ post, ∀ t, diskstats.parseLine l = some t →
        t.DeviceName ≠ s.DeviceName ∧ t.deviceID ≠ s.deviceID) →
      lookupA (post.foldl diskstats.parseStep m).ByName s.DeviceName = some s
      ∧ lookupA (post.foldl diskstats.parseStep m).ByDeviceID s.deviceID = some s := by
  induction post with
  | nil => intro m s h1 h2 _; exact ⟨h1, h2⟩
  | cons l t ih =>
    intro m s h1 h2 hpost
    have hrest : ∀ l' ∈ t, ∀ u, diskstats.parseLine l' = some u →
        u.DeviceName ≠ s.DeviceName ∧ u.deviceID ≠ s.deviceID :=
      fun l' hl' => hpost l' (List.mem_cons_of_mem _ hl')
    rw [List.foldl_cons]
    refine ih (diskstats.parseStep m l) s ?_ ?_ hrest
    · unfold diskstats.parseStep
      cases hp : diskstats.parseLine l with
      | none => exact h1
      | some u =>
        have hu := hpost l (List.mem_cons_self l t) u hp
        show lookupA (upsertA m.ByName u.DeviceName u) s.DeviceName = some s
        rw [lookupA_upsertA_ne _ _ _ _ (Ne.symm hu.1)]
        exact h1
    · unfold diskstats.parseStep
      cases hp : diskstats.parseLine l with
      | none => exact h2
      | some u =>
        have hu := hpost l (List.mem_cons_self l t) u hp
        show lookupA (upsertA m.ByDeviceID u.deviceID u) s.deviceID = some s
        rw [lookupA_upsertA_ne _ _ _ _ (Ne.symm hu.2)]
        exact h2

/-- C4 (amended): for every line with at least 14 fields and valid numeric
fields, whose device name and device id are not reused by a later parsed
line, Parse yields one record retrievable from both indexes, and byte
totals equal sector counts times 512 whenever that product fits in 64 bits
(uint64 multiplication reduces the product modulo 2^64). -/
theorem c4_parse_dual_index (pre : List String) (line : String) (post : List String)
    (s : diskstats.Stats) (hp : diskstats.parseLine line = some s)
    (hpost : ∀ l ∈ post, ∀ t, diskstats.parseLine l = some t →
      t.DeviceName ≠ s.DeviceName ∧ t.deviceID ≠ s.deviceID) :
    lookupA (diskstats.Parse (pre ++ line :: post)).ByName s.DeviceName = some s
    ∧ lookupA (diskstats.Parse (pre ++ line :: post)).ByDeviceID s.deviceID = some s
    ∧ (s.SectorsRead * 512 < 2 ^ 64 → s.ReadBytesTotal = s.SectorsRead * 512)
    ∧ (s.SectorsWritten * 512 < 2 ^ 64 → s.WriteBytesTotal = s.SectorsWritten * 512) := by
  have hstep : diskstats.parseStep
      (List.foldl diskstats.parseStep { ByName := [], ByDeviceID := [] } pre) line
      = { ByName := upsertA
            (List.foldl diskstats.parseStep { ByName := [], ByDeviceID := [] } pre).ByName
            s.DeviceName s,
          ByDeviceID := upsertA
            (List.foldl diskstats.parseStep { ByName := [], ByDeviceID := [] } pre).ByDeviceID
            s.deviceID s } := by
    unfold diskstats.parseStep
    rw [hp]
  have hmain := parse_post_preserved post
    { ByName := upsertA
        (List.foldl diskstats.parseStep { ByName := [], ByDeviceID := [] } pre).ByName
        s.DeviceName s,
      ByDeviceID := upsertA
        (List.foldl diskstats.parseStep { ByName := [], ByDeviceID := [] } pre).ByDeviceID
        s.deviceID s } s
    (lookupA_upsertA_self _ _ _) (lookupA_upsertA_self _ _ _) hpost
  constructor
  · unfold diskstats.Parse
    rw [List.foldl_append, List.foldl_cons, hstep]
    exact hmain.1
  constructor
  · unfold diskstats.Parse
    rw [List.foldl_append, List.foldl_cons, hstep]
    exact hmain.2
  exact ⟨fun hb => Nat.mod_eq_of_lt hb, fun hb => Nat.mod_eq_of_lt hb⟩

/-- C4 witness: the minimal valid line is retrievable under both keys and its
byte totals are the exact products. -/
theorem c4_witness :
    lookupA (diskstats.Parse [diskstats.line14]).ByName diskstats.stats14.DeviceName
      = some diskstats.stats14
    ∧ lookupA (diskstats.Parse [diskstats.line14]).ByDeviceID diskstats.stats14.deviceID
      = some diskstats.stats14
    ∧ diskstats.stats14.ReadBytesTotal = diskstats.stats14.SectorsRead * 512 := by
  have h := c4_parse_dual_index [] diskstats.line14 [] diskstats.stats14 (by decide)
    (fun l hl => absurd hl (List.not_mem_nil l))
  exact ⟨h.1, h.2.1, h.2.2.1 (by decide)⟩

/-- C4 counterexample: (a) with SectorsRead = 2^63 the uint64 product wraps to
0, so ReadBytesTotal differs from SectorsRead * 512; (b) a later line
reusing the same device name and id shadows the earlier record in both
indexes, so the earlier line's record is not retrievable. -/
theorem c4_counterexample :
    (diskstats.parseLine diskstats.lineOverflow = some diskstats.statsOverflow
      ∧ diskstats.statsOverflow.ReadBytesTotal = 0
      ∧ diskstats.statsOverflow.SectorsRead * 512 ≠ 0)
    ∧ (diskstats.parseLine diskstats.line14 = some diskstats.stats14
      ∧ diskstats.parseLine diskstats.lineShadow = some diskstats.statsShadow
      ∧ diskstats.statsShadow ≠ diskstats.stats14
      ∧ lookupA (diskstats.Parse [diskstats.line14, diskstats.lineShadow]).ByName
          diskstats.stats14.DeviceName = some diskstats.statsShadow
      ∧ lookupA (diskstats.Parse [diskstats.line14, diskstats.lineShadow]).ByDeviceID
          diskstats.stats14.deviceID = some diskstats.statsShadow) := by
  decide

theorem getD_drop_str : ∀ (n : Nat) (l : List String) (i : Nat),
    (l.drop n).getD i "" = l.getD (n + i) "" := by
  intro n
  induction n with
  | zero => intro l i; simp
  | succ n ih =>
    intro l i
    cases l with
    | nil => simp [List.getD]
    | cons a t =>
      rw [List.drop_succ_cons, ih t i, Nat.succ_add, List.getD_cons_succ]

theorem parseNums_spec :
    ∀ (fs : List String) (ns : List Nat), diskstats.parseNums fs = some ns →
      ns.length = fs.length
      ∧ ∀ i, i < ns.length → parseUint64 (fs.getD i "") = some (ns.getD i 0) := by
  intro fs
  induction fs with
  | nil =>
    intro ns h
    injection h with h
    subst h
    exact ⟨rfl, fun i hi => absurd hi (by simp)⟩
  | cons f t ih =>
    intro ns h
    unfold diskstats.parseNums at h
    cases hu : parseUint64 f with
    | none => rw [hu] at h; simp at h
    | some n =>
      cases ht : diskstats.parseNums t with
      | none => rw [hu, ht] at h; simp at h
      | some ns' =>
        rw [hu, ht] at h
        simp only [Option.some.injEq] at h
        subst h
        obtain ⟨hlen, hidx⟩ := ih ns' ht
        refine ⟨by simp [hlen], ?_⟩
        intro i hi
        cases i with
        | zero => simpa using hu
        | succ j =>
          rw [List.getD_cons_succ, List.getD_cons_succ]
          exact hidx j (by simpa using hi)

/-- C6: for every successfully parsed line, the four discard counters are the
parsed values of fields 14..17 exactly when the line has at least 18
fields and are zero otherwise, and the two flush counters are the parsed
values of fields 18..19 exactly when the line has at least 20 fields and
are zero otherwise; absence of these fields is never an error. -/
theorem c6_discard_flush_schema (line : String) (s : diskstats.Stats)
    (h : diskstats.parseLine line = some s) :
    (18 ≤ (goFields line).length →
      parseUint64 ((goFields line).getD 14 "") = some s.DiscardsCompleted
      ∧ parseUint64 ((goFields line).getD 15 "") = some s.DiscardsMerged
      ∧ parseUint64 ((goFields line).getD 16 "") = some s.SectorsDiscarded
      ∧ parseUint64 ((goFields line).getD 17 "") = some s.DiscardTimeMs)
    ∧ ((goFields line).length < 18 →
      s.DiscardsCompleted = 0 ∧ s.DiscardsMerged = 0
      ∧ s.SectorsDiscarded = 0 ∧ s.DiscardTimeMs = 0)
    ∧ (20 ≤ (goFields line).length →
      parseUint64 ((goFields line).getD 18 "") = some s.FlushCompleted
      ∧ parseUint64 ((goFields line).getD 19 "") = some s.FlushTimeMs)
    ∧ ((goFields line).length < 20 → s.FlushCompleted = 0 ∧ s.FlushTimeMs = 0) := by
  unfold diskstats.parseLine at h
  revert h
  generalize goFields line = fs
  intro h
  unfold diskstats.parseLineAux at h
  split at h
  · exact absurd h (by simp)
  next hlt =>
    split at h
    next maj mnr nums hmaj hmnr hnums =>
      injection h with h
      subst h
      obtain ⟨hlen, hidx⟩ := parseNums_spec _ _ hnums
      have hlen' : nums.length = fs.length - 3 := by rw [hlen, List.length_drop]
      have hfs14 : 14 ≤ fs.length := Nat.le_of_not_lt hlt
      refine ⟨?_, ?_, ?_, ?_⟩
      · intro h18
        have h15 : 15 ≤ nums.length := by omega
        have h11 := hidx 11 (by omega)
        have h12 := hidx 12 (by omega)
        have h13 := hidx 13 (by omega)
        have h14 := hidx 14 (by omega)
        rw [getD_drop_str] at h11 h12 h13 h14
        refine ⟨?_, ?_, ?_, ?_⟩
        · show parseUint64 (fs.getD 14 "") = some (if 15 ≤ nums.length then nums.getD 11 0 else 0)
          rw [if_pos h15]
          exact h11
        · show parseUint64 (fs.getD 15 "") = some (if 15 ≤ nums.length then nums.getD 12 0 else 0)
          rw [if_pos h15]
          exact h12
        · show parseUint64 (fs.getD 16 "") = some (if 15 ≤ nums.length then nums.getD 13 0 else 0)
          rw [if_pos h15]
          exact h13
        · show parseUint64 (fs.getD 17 "") = some (if 15 ≤ nums.length then nums.getD 14 0 else 0)
          rw [if_pos h15]
          exact h14
      · intro h18
        have h15 : ¬ 15 ≤ nums.length := by omega
        exact ⟨if_neg h15, if_neg h15, if_neg h15, if_neg h15⟩
      · intro h20
        have h17 : 17 ≤ nums.length := by omega
        have h15 := hidx 15 (by omega)
        have h16 := hidx 16 (by omega)
        rw [getD_drop_str] at h15 h16
        constructor
        · show parseUint64 (fs.getD 18 "") = some (if 17 ≤ nums.length then nums.getD 15 0 else 0)
          rw [if_pos h17]
          exact h15
        · show parseUint64 (fs.getD 19 "") = some (if 17 ≤ nums.length then nums.getD 16 0 else 0)
          rw [if_pos h17]
          exact h16
      · intro h20
        have h17 : ¬ 17 ≤ nums.length := by omega
        exact ⟨if_neg h17, if_neg h17⟩
    next =>
      exact absurd h (by simp)

/-- C6 witness: an 18-field line populates its discard counters from fields
14..17 and leaves its flush counters zero. -/
theorem c6_witness :
    diskstats.parseLine diskstats.line18 = some diskstats.stats18
    ∧ 18 ≤ (goFields diskstats.line18).length
    ∧ parseUint64 ((goFields diskstats.line18).getD 14 "")
        = some diskstats.stats18.DiscardsCompleted
    ∧ parseUint64 ((goFields diskstats.line18).getD 17 "")
        = some diskstats.stats18.DiscardTimeMs
    ∧ diskstats.stats18.FlushCompleted = 0 ∧ diskstats.stats18.FlushTimeMs = 0 := by
  obtain ⟨hd, _, _, hf⟩ :=
    c6_discard_flush_schema diskstats.line18 diskstats.stats18 (by decide)
  have hd' := hd (by decide)
  have hf' := hf (by decide)
  exact ⟨by decide, by decide, hd'.1, hd'.2.2.2, hf'.1, hf'.2⟩

theorem strLen_pos_of_ne (s : String) (h : s ≠ "") : 0 < s.length := by
  cases s with
  | mk data =>
    cases data with
    | nil => exact absurd rfl h
    | cons c cs => simp [String.length]

theorem findBest_isSome (path : String) :
    ∀ (ms : List mounts.Mount) (b : mounts.Mount) (n : Nat),
      ∃ r, mounts.findBest path (some b) n ms = some r := by
  intro ms
  induction ms with
  | nil => intro b n; exact ⟨b, rfl⟩
  | cons m rest ih =>
    intro b n
    unfold mounts.findBest
    by_cases hc : strHasPfx path m.MountPoint = true ∧ n < m.MountPoint.length
    · rw [if_pos hc]
      exact ih m m.MountPoint.length
    · rw [if_neg hc]
      exact ih b n

theorem findBest_none_iff (path : String) :
    ∀ (ms : List mounts.Mount) (best : Option mounts.Mount) (bestLen : Nat),
      mounts.findBest path best bestLen ms = none ↔
        best = none ∧ ∀ m ∈ ms,
          ¬(strHasPfx path m.MountPoint = true ∧ bestLen < m.MountPoint.length) := by
  intro ms
  induction ms with
  | nil =>
    intro best bestLen
    constructor
    · intro h
      exact ⟨h, fun m hm => absurd hm (List.not_mem_nil m)⟩
    · intro h
      exact h.1
  | cons m rest ih =>
    intro best bestLen
    unfold mounts.findBest
    by_cases hc : strHasPfx path m.MountPoint = true ∧ bestLen < m.MountPoint.length
    · rw [if_pos hc]
      constructor
      · intro h
        obtain ⟨r, hr⟩ := findBest_isSome path rest m m.MountPoint.length
        rw [hr] at h
        exact absurd h (by simp)
      · intro h
        exact absurd hc (h.2 m (List.mem_cons_self m rest))
    · rw [if_neg hc]
      rw [ih best bestLen]
      constructor
      · intro h
        refine ⟨h.1, ?_⟩
        intro m' hm'
        cases hm' with
        | head => exact hc
        | tail _ hm'' => exact h.2 m' hm''
      · intro h
        exact ⟨h.1, fun m' hm' => h.2 m' (List.mem_cons_of_mem m hm')⟩

theorem findBest_some_spec (path : String) :
    ∀ (ms : List mounts.Mount) (best : Option mounts.Mount) (bestLen : Nat) (r : mounts.Mount),
      mounts.findBest path best bestLen ms = some r →
      (best = some r ∧ ∀ m ∈ ms, strHasPfx path m.MountPoint = true →
        m.MountPoint.length ≤ bestLen)
      ∨ (strHasPfx path r.MountPoint = true ∧ bestLen < r.MountPoint.length
        ∧ ∃ l1 l2, ms = l1 ++ r :: l2
          ∧ (∀ m ∈ l1, strHasPfx path m.MountPoint = true →
              m.MountPoint.length < r.MountPoint.length)
          ∧ (∀ m ∈ l2, strHasPfx path m.MountPoint = true →
              m.MountPoint.length ≤ r.MountPoint.length)) := by
  intro ms
  induction ms with
  | nil =>
    intro best bestLen r h
    exact Or.inl ⟨h, fun m hm => absurd hm (List.not_mem_nil m)⟩
  | cons m rest ih =>
    intro best bestLen r h
    unfold mounts.findBest at h
    by_cases hc : strHasPfx path m.MountPoint = true ∧ bestLen < m.MountPoint.length
    · rw [if_pos hc] at h
      cases ih (some m) m.MountPoint.length r h with
      | inl hl =>
        have hrm : m = r := by
          have := hl.1
          injection this
        subst hrm
        refine Or.inr ⟨hc.1, hc.2, [], rest, rfl, ?_, ?_⟩
        · intro m' hm'
          exact absurd hm' (List.not_mem_nil m')
        · exact hl.2
      | inr hr =>
        obtain ⟨hpfx, hlt, l1, l2, heq, h1, h2⟩ := hr
        refine Or.inr ⟨hpfx, Nat.lt_trans hc.2 hlt, m :: l1, l2, by rw [heq, List.cons_append], ?_, h2⟩
        intro m' hm'
        cases hm' with
        | head => exact fun _ => hlt
        | tail _ hm'' => exact h1 m' hm''
    · rw [if_neg hc] at h
      cases ih best bestLen r h with
      | inl hl =>
        refine Or.inl ⟨hl.1, ?_⟩
        intro m' hm'
        cases hm' with
        | head =>
          intro hp
          by_contra hgt
          exact hc ⟨hp, Nat.lt_of_not_le hgt⟩
        | tail _ hm'' => exact hl.2 m' hm''
      | inr hr =>
        obtain ⟨hpfx, hlt, l1, l2, heq, h1, h2⟩ := hr
        refine Or.inr ⟨hpfx, hlt, m :: l1, l2, by rw [heq, List.cons_append], ?_, h2⟩
        intro m' hm'
        cases hm' with
        | head =>
          intro hp
          have hle : m.MountPoint.length ≤ bestLen := by
            by_contra hgt
            exact hc ⟨hp, Nat.lt_of_not_le hgt⟩
          exact Nat.lt_of_le_of_lt hle hlt
        | tail _ hm'' => exact h1 m' hm''

/-- C7 (amended): FindMountByPath returns the entry whose mount point is the
longest non-empty prefix of the query path, the first such entry winning
ties; it returns none exactly when no entry with a non-empty mount point is
a prefix of the path (an entry whose mount point is the empty string — a
prefix of every path — is never selected, since the loop requires a
strictly positive length gain over the initial best length 0). -/
theorem c7_find_mount_longest_match (ms : List mounts.Mount) (path : String) :
    (∀ r, mounts.FindMountByPath ms path = some r →
      strHasPfx path r.MountPoint = true
      ∧ r.MountPoint ≠ ""
      ∧ (∀ m ∈ ms, strHasPfx path m.MountPoint = true →
          m.MountPoint.length ≤ r.MountPoint.length)
      ∧ ∃ l1 l2, ms = l1 ++ r :: l2
          ∧ ∀ m ∈ l1, strHasPfx path m.MountPoint = true →
              m.MountPoint.length < r.MountPoint.length)
    ∧ (mounts.FindMountByPath ms path = none →
        ∀ m ∈ ms, strHasPfx path m.MountPoint = true → m.MountPoint = "") := by
  constructor
  · intro r h
    unfold mounts.FindMountByPath at h
    cases findBest_some_spec path ms none 0 r h with
    | inl hl => exact absurd hl.1 (by simp)
    | inr hr =>
      obtain ⟨hpfx, hlen0, l1, l2, heq, h1, h2⟩ := hr
      refine ⟨hpfx, ?_, ?_, l1, l2, heq, h1⟩
      · intro hempty
        rw [hempty] at hlen0
        exact absurd hlen0 (by simp)
      · intro m hm hp
        rw [heq] at hm
        rcases List.mem_append.mp hm with hm1 | hm2
        · exact Nat.le_of_lt (h1 m hm1 hp)
        · cases hm2 with
          | head => exact Nat.le_refl _
          | tail _ hm2' => exact h2 m hm2' hp
  · intro h m hm hp
    unfold mounts.FindMountByPath at h
    rw [findBest_none_iff] at h
    by_contra hne
    exact h.2 m hm ⟨hp, strLen_pos_of_ne m.MountPoint hne⟩

/-- C7 counterexample: the empty mount point is a prefix of the query path,
yet FindMountByPath returns none — the claim's "returns the entry whose
mount point is the longest prefix" fails for empty mount points. -/
theorem c7_counterexample :
    strHasPfx "/x" mounts.emptyPointMount.MountPoint = true
    ∧ mounts.FindMountByPath [mounts.emptyPointMount] "/x" = none := by
  decide

/-- C7 witness: with mounts at /a and /a/b, the query /a/b/c resolves to the
/a/b entry, which dominates every matching mount point's length. -/
theorem c7_witness :
    mounts.FindMountByPath [mounts.mountA, mounts.mountAB] "/a/b/c" = some mounts.mountAB
    ∧ ∀ m ∈ [mounts.mountA, mounts.mountAB],
        strHasPfx "/a/b/c" m.MountPoint = true →
        m.MountPoint.length ≤ mounts.mountAB.MountPoint.length := by
  have h := (c7_find_mount_longest_match [mounts.mountA, mounts.mountAB] "/a/b/c").1
    mounts.mountAB (by decide)
  exact ⟨by decide, h.2.2.1⟩

theorem evalLoop_hops_le (fs : mounts.SymFS) :
    ∀ (fuel : Nat) (p : String), (mounts.evalLoop fs fuel p).2.2 ≤ fuel := by
  intro fuel
  induction fuel with
  | zero => intro p; simp [mounts.evalLoop]
  | succ n ih =>
    intro p
    unfold mounts.evalLoop
    cases fs.lstat p with
    | none => simp
    | some b =>
      cases b with
      | false => simp
      | true =>
        cases fs.readlink p with
        | none => simp
        | some t =>
          have := ih (if strHasPfx t "/" then t else parentDirOf p ++ t)
          simpa using Nat.succ_le_succ this

theorem evalLoop_step_rel (fs : mounts.SymFS) (fuel : Nat) (p t : String)
    (h1 : fs.lstat p = some true) (h2 : fs.readlink p = some t)
    (h3 : strHasPfx t "/" = false) :
    mounts.evalLoop fs (fuel + 1) p
      = ((mounts.evalLoop fs fuel (parentDirOf p ++ t)).1,
         (mounts.evalLoop fs fuel (parentDirOf p ++ t)).2.1,
         (mounts.evalLoop fs fuel (parentDirOf p ++ t)).2.2 + 1) := by
  conv_lhs => unfold mounts.evalLoop
  simp [h1, h2, h3]

/-- C8: ResolveDevice terminates on every input: the symlink loop follows at
most 255 hops; a relative link target is resolved against the parent
directory of the current link; when resolution fails (the hop bound is
exceeded on a cycle, or lstat/readlink errors) ResolveDevice returns the
original unresolved path with no error to propagate; and the returned
device name is always the final slash-separated segment of the returned
path. -/
theorem c8_resolve_device_bounded (fs : mounts.SymFS) (p : String) :
    (mounts.ResolveDevice fs p).2 = lastSegment (mounts.ResolveDevice fs p).1
    ∧ (mounts.evalLoop fs 255 p).2.2 ≤ 255
    ∧ ((mounts.evalSymlinks fs p).2 = false →
        mounts.ResolveDevice fs p = (p, lastSegment p))
    ∧ (∀ t, fs.lstat p = some true → fs.readlink p = some t → strHasPfx t "/" = false →
        mounts.evalSymlinks fs p
          = ((mounts.evalLoop fs 254 (parentDirOf p ++ t)).1,
             (mounts.evalLoop fs 254 (parentDirOf p ++ t)).2.1)) := by
  refine ⟨rfl, evalLoop_hops_le fs 255 p, ?_, ?_⟩
  · intro he
    simp [mounts.ResolveDevice, he]
  · intro t h1 h2 h3
    show ((mounts.evalLoop fs 255 p).1, (mounts.evalLoop fs 255 p).2.1) = _
    rw [show (255 : Nat) = 254 + 1 from rfl, evalLoop_step_rel fs 254 p t h1 h2 h3]

/-- C8 witness: on the two-link cycle /a -> /b -> /a the loop exhausts its
255-hop budget, ResolveDevice returns the original path /a without error,
and the device name is its last segment a. -/
theorem c8_witness :
    (mounts.evalSymlinks mounts.cycleFS "/a").2 = false
    ∧ mounts.ResolveDevice mounts.cycleFS "/a" = ("/a", lastSegment "/a")
    ∧ lastSegment "/a" = "a"
    ∧ (mounts.evalLoop mounts.cycleFS 255 "/a").2.2 ≤ 255 := by
  have h := c8_resolve_device_bounded mounts.cycleFS "/a"
  have hf : (mounts.evalSymlinks mounts.cycleFS "/a").2 = false := by decide
  exact ⟨hf, h.2.2.1 hf, by decide, h.2.1⟩

theorem lookupA_mem {α : Type} :
    ∀ (l : List (String × α)) (k : String) (v : α),
      lookupA l k = some v → (k, v) ∈ l := by
  intro l
  induction l with
  | nil => intro k v h; simp [lookupA] at h
  | cons p t ih =>
    intro k v h
    cases p with
    | mk k0 v0 =>
      by_cases hk : k0 = k
      · subst hk
        rw [lookupA, if_pos rfl] at h
        injection h with h
        subst h
        exact List.mem_cons_self _ _
      · simp only [lookupA, if_neg hk] at h
        exact List.mem_cons_of_mem _ (ih k v h)

theorem mem_updateA {α : Type} :
    ∀ (l : List (String × α)) (k : String) (v : α) (kv : String × α),
      kv ∈ updateA l k v → kv = (k, v) ∨ kv ∈ l := by
  intro l
  induction l with
  | nil => intro k v kv h; simp [updateA] at h
  | cons p t ih =>
    intro k v kv h
    cases p with
    | mk k0 v0 =>
      by_cases hk : k0 = k
      · rw [updateA, if_pos hk] at h
        cases h with
        | head => exact Or.inl rfl
        | tail _ hmem => exact Or.inr (List.mem_cons_of_mem _ hmem)
      · rw [updateA, if_neg hk] at h
        cases h with
        | head => exact Or.inr (List.mem_cons_self _ _)
        | tail _ hmem =>
          cases ih k v kv hmem with
          | inl heq => exact Or.inl heq
          | inr hmem' => exact Or.inr (List.mem_cons_of_mem _ hmem')

theorem inv_mergeStep (seen : List (String × discovery.VolumeInfo))
    (v : discovery.VolumeInfo)
    (hseen : ∀ kv ∈ seen, kv.1 = kv.2.DeviceName ∧ kv.1 ≠ "") :
    ∀ kv ∈ discovery.mergeStep seen v, kv.1 = kv.2.DeviceName ∧ kv.1 ≠ "" := by
  unfold discovery.mergeStep
  by_cases hdn : v.DeviceName = ""
  · rw [if_pos hdn]
    exact hseen
  · rw [if_neg hdn]
    cases hl : lookupA seen v.DeviceName with
    | some existing =>
      intro kv hkv
      cases mem_updateA seen v.DeviceName (discovery.mergeVolumeInfo existing v) kv hkv with
      | inl heq =>
        subst heq
        have hex := hseen _ (lookupA_mem seen v.DeviceName existing hl)
        refine ⟨?_, hdn⟩
        show v.DeviceName = (discovery.mergeVolumeInfo existing v).DeviceName
        show v.DeviceName = existing.DeviceName
        exact hex.1
      | inr hmem => exact hseen _ hmem
    | none =>
      intro kv hkv
      rcases List.mem_append.mp hkv with h1 | h2
      · exact hseen _ h1
      · have : kv = (v.DeviceName, v) := List.mem_singleton.mp h2
        subst this
        exact ⟨rfl, hdn⟩

theorem inv_mergeBatch :
    ∀ (vs : List discovery.VolumeInfo) (seen : List (String × discovery.VolumeInfo)),
      (∀ kv ∈ seen, kv.1 = kv.2.DeviceName ∧ kv.1 ≠ "") →
      ∀ kv ∈ vs.foldl discovery.mergeStep seen, kv.1 = kv.2.DeviceName ∧ kv.1 ≠ "" := by
  intro vs
  induction vs with
  | nil => intro seen hseen; exact hseen
  | cons v t ih =>
    intro seen hseen
    rw [List.foldl_cons]
    exact ih (discovery.mergeStep seen v) (inv_mergeStep seen v hseen)

theorem inv_discoverStep (seen : List (String × discovery.VolumeInfo))
    (d : discovery.Discoverer)
    (hseen : ∀ kv ∈ seen, kv.1 = kv.2.DeviceName ∧ kv.1 ≠ "") :
    ∀ kv ∈ discovery.discoverStep seen d, kv.1 = kv.2.DeviceName ∧ kv.1 ≠ "" := by
  unfold discovery.discoverStep
  by_cases ha : d.available = true
  · rw [if_pos ha]
    cases d.discover with
    | none => exact hseen
    | some vs => exact inv_mergeBatch vs seen hseen
  · rw [if_neg ha]
    exact hseen

theorem inv_runFold :
    ∀ (ds : List discovery.Discoverer) (seen : List (String × discovery.VolumeInfo)),
      (∀ kv ∈ seen, kv.1 = kv.2.DeviceName ∧ kv.1 ≠ "") →
      ∀ kv ∈ ds.foldl discovery.discoverStep seen, kv.1 = kv.2.DeviceName ∧ kv.1 ≠ "" := by
  intro ds
  induction ds with
  | nil => intro seen hseen; exact hseen
  | cons d t ih =>
    intro seen hseen
    rw [List.foldl_cons]
    exact ih (discovery.discoverStep seen d) (inv_discoverStep seen d hseen)

theorem lookupA_mergeStep_mono (seen : List (String × discovery.VolumeInfo))
    (v : discovery.VolumeInfo) (k : String)
    (h : lookupA seen k ≠ none) : lookupA (discovery.mergeStep seen v) k ≠ none := by
  obtain ⟨w, hw⟩ := Option.ne_none_iff_exists'.mp h
  unfold discovery.mergeStep
  by_cases hdn : v.DeviceName = ""
  · rw [if_pos hdn]
    exact h
  · rw [if_neg hdn]
    cases hl : lookupA seen v.DeviceName with
    | some existing =>
      by_cases hk : k = v.DeviceName
      · subst hk
        rw [lookupA_updateA_self seen v.DeviceName (discovery.mergeVolumeInfo existing v)
          (by simp [hl])]
        simp
      · rw [lookupA_updateA_ne seen v.DeviceName k (discovery.mergeVolumeInfo existing v) hk]
        exact h
    | none =>
      rw [lookupA_append_some seen _ k w hw]
      simp

theorem lookupA_mergeBatch_mono :
    ∀ (vs : List discovery.VolumeInfo) (seen : List (String × discovery.VolumeInfo)) (k : String),
      lookupA seen k ≠ none → lookupA (vs.foldl discovery.mergeStep seen) k ≠ none := by
  intro vs
  induction vs with
  | nil => intro seen k h; exact h
  | cons v t ih =>
    intro seen k h
    rw [List.foldl_cons]
    exact ih (discovery.mergeStep seen v) k (lookupA_mergeStep_mono seen v k h)

theorem lookupA_discoverStep_mono (seen : List (String × discovery.VolumeInfo))
    (d : discovery.Discoverer) (k : String)
    (h : lookupA seen k ≠ none) : lookupA (discovery.discoverStep seen d) k ≠ none := by
  unfold discovery.discoverStep
  by_cases ha : d.available = true
  · rw [if_pos ha]
    cases d.discover with
    | none => exact h
    | some vs => exact lookupA_mergeBatch_mono vs seen k h
  · rw [if_neg ha]
    exact h

theorem lookupA_runFold_mono :
    ∀ (ds : List discovery.Discoverer) (seen : List (String × discovery.VolumeInfo)) (k : String),
      lookupA seen k ≠ none → lookupA (ds.foldl discovery.discoverStep seen) k ≠ none := by
  intro ds
  induction ds with
  | nil => intro seen k h; exact h
  | cons d t ih =>
    intro seen k h
    rw [List.foldl_cons]
    exact ih (discovery.discoverStep seen d) k (lookupA_discoverStep_mono seen d k h)

theorem mergeStep_self (seen : List (String × discovery.VolumeInfo))
    (v : discovery.VolumeInfo) (hdn : v.DeviceName ≠ "") :
    lookupA (discovery.mergeStep seen v) v.DeviceName ≠ none := by
  unfold discovery.mergeStep
  rw [if_neg hdn]
  cases hl : lookupA seen v.DeviceName with
  | some existing =>
    rw [lookupA_updateA_self seen v.DeviceName (discovery.mergeVolumeInfo existing v)
      (by simp [hl])]
    simp
  | none =>
    rw [lookupA_append_none seen _ v.DeviceName hl]
    simp [lookupA]

theorem mergeBatch_present :
    ∀ (vs : List discovery.VolumeInfo) (seen : List (String × discovery.VolumeInfo))
      (v : discovery.VolumeInfo), v ∈ vs → v.DeviceName ≠ "" →
      lookupA (vs.foldl discovery.mergeStep seen) v.DeviceName ≠ none := by
  intro vs
  induction vs with
  | nil => intro seen v hv; exact absurd hv (List.not_mem_nil v)
  | cons u t ih =>
    intro seen v hv hdn
    rw [List.foldl_cons]
    cases hv with
    | head =>
      exact lookupA_mergeBatch_mono t (discovery.mergeStep seen u) u.DeviceName
        (mergeStep_self seen u hdn)
    | tail _ hv' => exact ih (discovery.mergeStep seen u) v hv' hdn

/-- C1 (amended): the merge key of MultiDiscoverer.Discover is the record's
canonical device name, never its device-id: every entry of the result map
is keyed by its record's non-empty DeviceName, and every record yielded by
an available, successful producer whose DeviceName is non-empty lands
under that key.  A record with an empty DeviceName is dropped even when
its device-id is non-empty (see the counterexample). -/
theorem c1_merge_key_is_device_name (ds : List discovery.Discoverer) :
    (∀ kv ∈ discovery.runProducers ds, kv.1 = kv.2.DeviceName ∧ kv.1 ≠ "")
    ∧ ∀ p ∈ ds, p.available = true → ∀ vs, p.discover = some vs →
        ∀ v ∈ vs, v.DeviceName ≠ "" →
          lookupA (discovery.runProducers ds) v.DeviceName ≠ none := by
  constructor
  · exact inv_runFold ds [] (fun kv hkv => absurd hkv (List.not_mem_nil kv))
  · intro p hp ha vs hvs v hv hdn
    obtain ⟨l1, l2, rfl⟩ := List.append_of_mem hp
    unfold discovery.runProducers
    rw [List.foldl_append, List.foldl_cons]
    apply lookupA_runFold_mono l2
    unfold discovery.discoverStep
    rw [if_pos ha, hvs]
    exact mergeBatch_present vs _ v hv hdn

/-- C1 counterexample: a record with a non-empty device-id 8:0 but an empty
device name is dropped by Discover — the claim's "merge key is the
device-id when that field is non-empty" fails: the record never appears
in the returned set at all. -/
theorem c1_counterexample :
    discovery.idOnlyRecord.DeviceID ≠ ""
    ∧ discovery.runProducers [discovery.idOnlyProducer] = [] := by
  decide

/-- C1 witness: one producer with one named record yields an entry under that
device name. -/
theorem c1_witness :
    lookupA (discovery.runProducers [discovery.namedProducer])
        discovery.sdaRecord.DeviceName ≠ none
    ∧ discovery.sdaRecord.DeviceName = "sda" := by
  refine ⟨?_, by decide⟩
  exact (c1_merge_key_is_device_name [discovery.namedProducer]).2 discovery.namedProducer
    (List.mem_cons_self _ _) rfl [discovery.sdaRecord] rfl discovery.sdaRecord
    (List.mem_cons_self _ _) (by decide)

theorem discoverStep_skip (seen : List (String × discovery.VolumeInfo))
    (d : discovery.Discoverer) (h : d.available = false ∨ d.discover = none) :
    discovery.discoverStep seen d = seen := by
  unfold discovery.discoverStep
  cases h with
  | inl ha => rw [if_neg (by simp [ha])]
  | inr hd =>
    by_cases ha : d.available = true
    · rw [if_pos ha, hd]
    · rw [if_neg ha]

theorem runFold_filter :
    ∀ (ds : List discovery.Discoverer) (seen : List (String × discovery.VolumeInfo)),
      ds.foldl discovery.discoverStep seen
        = (ds.filter fun p => p.available && p.discover.isSome).foldl
            discovery.discoverStep seen := by
  intro ds
  induction ds with
  | nil => intro seen; rfl
  | cons d t ih =>
    intro seen
    by_cases hg : (d.available && d.discover.isSome) = true
    · have hfil : (d :: t).filter (fun p => p.available && p.discover.isSome)
          = d :: t.filter (fun p => p.available && p.discover.isSome) := by
        simp [List.filter_cons, hg]
      rw [hfil, List.foldl_cons, List.foldl_cons]
      exact ih (discovery.discoverStep seen d)
    · have h' : d.available = false ∨ d.discover = none := by
        by_cases ha : d.available = true
        · right
          have hb : ¬ d.discover.isSome = true := by
            intro hb
            exact hg (by rw [ha, hb]; rfl)
          exact Option.not_isSome_iff_eq_none.mp hb
        · left
          cases hav : d.available with
          | false => rfl
          | true => exact absurd hav ha
      have hf : (d.available && d.discover.isSome) = false := by
        cases hq : (d.available && d.discover.isSome) with
        | false => rfl
        | true => exact absurd hq hg
      have hfil : (d :: t).filter (fun p => p.available && p.discover.isSome)
          = t.filter (fun p => p.available && p.discover.isSome) := by
        simp [List.filter_cons, hf]
      rw [hfil, List.foldl_cons, discoverStep_skip seen d h']
      exact ih seen

/-- C3: Discover skips producers that are unavailable or whose Discover
errors — the result equals that of the good producers alone, so one
producer's failure never loses another's records — and the call never
returns an error: when every producer is unavailable or failing it
returns the empty record set wrapped in a non-error result. -/
theorem c3_discover_degrades_gracefully (ds : List discovery.Discoverer) :
    discovery.MultiDiscoverer.Discover ⟨ds⟩
      = Except.ok (discovery.runProducers
          (ds.filter fun p => p.available && p.discover.isSome))
    ∧ ((∀ p ∈ ds, p.available = false ∨ p.discover = none) →
        discovery.MultiDiscoverer.Discover ⟨ds⟩ = Except.ok []) := by
  constructor
  · exact congrArg Except.ok (runFold_filter ds [])
  · intro hall
    have hfe : ds.filter (fun p => p.available && p.discover.isSome) = [] := by
      rw [List.filter_eq_nil_iff]
      intro a ha
      cases hall a ha with
      | inl h1 => simp [h1]
      | inr h2 => simp [h2]
    have h2 : discovery.runProducers ds = [] := by
      have h1 := runFold_filter ds []
      rw [hfe] at h1
      exact h1
    exact congrArg Except.ok h2

/-- C3 witness: an unavailable producer and an erroring producer are skipped;
the remaining producer's records survive, and with only bad producers the
result is ok with an empty set. -/
theorem c3_witness :
    discovery.MultiDiscoverer.Discover
        ⟨[discovery.downProducer, discovery.failingProducer, discovery.namedProducer]⟩
      = Except.ok (discovery.runProducers [discovery.namedProducer])
    ∧ discovery.MultiDiscoverer.Discover
        ⟨[discovery.downProducer, discovery.failingProducer]⟩ = Except.ok [] := by
  constructor
  · exact (c3_discover_degrades_gracefully
      [discovery.downProducer, discovery.failingProducer, discovery.namedProducer]).1
  · exact (c3_discover_degrades_gracefully
      [discovery.downProducer, discovery.failingProducer]).2 (by decide)
